import Mathlib

/-!
Shallow embedding of the `rubygems_api` crate (`src/lib.rs`): a synchronous
client for the RubyGems.org gem-metadata endpoint.  The embedding models the
JSON payloads, the serde-derived decoding of `GemInfo` and its nested records,
the three-kind error taxonomy, and the control flow of `SyncClient::get` and
`SyncClient::gem_info`.  The HTTP transport and the URL-join operation of the
`url` crate are external collaborators; they enter the model as explicit
oracle parameters, so every theorem about the client's control flow holds for
every possible behaviour of those collaborators.
-/

namespace RubygemsApi

/-- A JSON value, as produced by parsing a response body. -/
inductive Json where
  | null : Json
  | bool : Bool → Json
  | num : Int → Json
  | str : String → Json
  | arr : List Json → Json
  | obj : List (String × Json) → Json
deriving Repr

/-- `url::ParseError` variants relevant to this crate (external collaborator). -/
inductive UrlParseError where
  | RelativeUrlWithoutBase : UrlParseError
  | EmptyHost : UrlParseError
  | InvalidDomainCharacter : UrlParseError
deriving DecidableEq, Repr

/-- The kinds of `reqwest::Error` the code can observe: a send/connect
failure, a status error produced by `error_for_status`, and a body-decode
failure produced by `Response::json`. -/
inductive ReqwestError where
  | connect : ReqwestError
  | status : Nat → ReqwestError
  | decode : ReqwestError
deriving DecidableEq, Repr

/-- The crate's public error enum (`enum Error` in `src/lib.rs`). -/
inductive Error where
  | Http : ReqwestError → Error
  | Url : UrlParseError → Error
  | NotFound : Error
deriving DecidableEq, Repr

/-- `struct GemDevDeps` — a development dependency entry. -/
structure GemDevDeps where
  name : String
  requirements : String
deriving DecidableEq, Repr

/-- `struct GemRunDeps` — a runtime dependency entry. -/
structure GemRunDeps where
  name : String
  requirements : String
deriving DecidableEq, Repr

/-- `struct GemDeps` — optional development and runtime dependency lists. -/
structure GemDeps where
  development : Option (List GemDevDeps)
  runtime : Option (List GemRunDeps)
deriving DecidableEq, Repr

/-- `struct GemInfo` — the decoded package metadata record. -/
structure GemInfo where
  name : String
  authors : String
  version : String
  info : Option String
  licenses : Option (List String)
  project_uri : String
  gem_uri : String
  homepage_uri : Option String
  wiki_uri : Option String
  documentation_uri : Option String
  dependencies : GemDeps
  sha : String
deriving DecidableEq, Repr

/-- serde: deserialize a `String` from a JSON value (only a JSON string
succeeds). -/
def asString : Json → Option String
  | .str s => some s
  | _ => none

/-- serde: deserialize a `Vec<T>` element-by-element, in order, failing if
any element fails. -/
def decodeList (dec : Json → Option α) : List Json → Option (List α)
  | [] => some []
  | j :: js => do
    let x ← dec j
    let xs ← decodeList dec js
    pure (x :: xs)

/-- serde: a required struct field — must be present and its value must
decode, else the whole decode fails. -/
def reqField (fields : List (String × Json)) (k : String)
    (dec : Json → Option α) : Option α :=
  (fields.lookup k).bind dec

/-- serde: an `Option<T>` struct field — a missing key or a JSON `null`
decodes to `none`; any other value must decode as a `T`. -/
def optField (fields : List (String × Json)) (k : String)
    (dec : Json → Option α) : Option (Option α) :=
  match fields.lookup k with
  | none => some none
  | some .null => some none
  | some v => (dec v).map some

/-- serde: `Vec<String>` from a JSON array of strings. -/
def decodeStringList : Json → Option (List String)
  | .arr js => decodeList asString js
  | _ => none

/-- serde derive for `GemDevDeps`. -/
def decodeGemDevDeps : Json → Option GemDevDeps
  | .obj fields => do
    let n ← reqField fields "name" asString
    let r ← reqField fields "requirements" asString
    pure ⟨n, r⟩
  | _ => none

/-- serde derive for `GemRunDeps`. -/
def decodeGemRunDeps : Json → Option GemRunDeps
  | .obj fields => do
    let n ← reqField fields "name" asString
    let r ← reqField fields "requirements" asString
    pure ⟨n, r⟩
  | _ => none

/-- serde: `Vec<GemDevDeps>` from a JSON array. -/
def decodeDevList : Json → Option (List GemDevDeps)
  | .arr js => decodeList decodeGemDevDeps js
  | _ => none

/-- serde: `Vec<GemRunDeps>` from a JSON array. -/
def decodeRunList : Json → Option (List GemRunDeps)
  | .arr js => decodeList decodeGemRunDeps js
  | _ => none

/-- serde derive for `GemDeps`. -/
def decodeGemDeps : Json → Option GemDeps
  | .obj fields => do
    let dev ← optField fields "development" decodeDevList
    let run ← optField fields "runtime" decodeRunList
    pure ⟨dev, run⟩
  | _ => none

/-- serde derive for `GemInfo`: every field without `Option` is required,
`Option` fields default to `none` when absent or `null`. -/
def decodeGemInfo : Json → Option GemInfo
  | .obj fields => do
    let n ← reqField fields "name" asString
    let a ← reqField fields "authors" asString
    let v ← reqField fields "version" asString
    let i ← optField fields "info" asString
    let l ← optField fields "licenses" decodeStringList
    let p ← reqField fields "project_uri" asString
    let g ← reqField fields "gem_uri" asString
    let h ← optField fields "homepage_uri" asString
    let w ← optField fields "wiki_uri" asString
    let d ← optField fields "documentation_uri" asString
    let deps ← reqField fields "dependencies" decodeGemDeps
    let s ← reqField fields "sha" asString
    pure ⟨n, a, v, i, l, p, g, h, w, d, deps, s⟩
  | _ => none

/-- An HTTP response as observed by the code after `send()`: the status code
and the body.  The body is the result of JSON-parsing the response text;
`none` models text that is not valid JSON. -/
structure HttpResponse where
  status : Nat
  body : Option Json
deriving Repr

/-- `Response::json::<GemInfo>()`: JSON-parse the body, then deserialize. -/
def decodeBody (body : Option Json) : Option GemInfo :=
  body.bind decodeGemInfo

/-- The fixed base URL literal from `SyncClient::new`. -/
def BASE_URL : String := "https://rubygems.org/api/v1/gems/"

/-- Split a character list at the first `':'`, returning the part before it
and the part after it. -/
def splitScheme : List Char → Option (List Char × List Char)
  | [] => none
  | c :: cs =>
    if c = ':' then some ([], cs)
    else (splitScheme cs).map fun p => (c :: p.1, p.2)

/-- Model of `url::Url::parse` (external collaborator), restricted to the
absolute `scheme://host/path` shape that this crate uses: the scheme must be
non-empty and alphabetic, the host non-empty with domain-safe characters. -/
def urlParse (s : String) : Except UrlParseError String :=
  match splitScheme s.toList with
  | none => .error .RelativeUrlWithoutBase
  | some (scheme, rest) =>
    if scheme.isEmpty || !scheme.all Char.isAlpha then
      .error .RelativeUrlWithoutBase
    else
      match rest with
      | '/' :: '/' :: hostAndPath =>
        let host := hostAndPath.takeWhile fun ch => ch ≠ '/'
        if host.isEmpty then .error .EmptyHost
        else if host.all fun ch => ch.isAlphanum || ch = '.' || ch = '-' then
          .ok s
        else .error .InvalidDomainCharacter
      | _ => .error .RelativeUrlWithoutBase

/-- `struct SyncClient`: the transport handle carries no modelled state, so
the client is its immutable base URL. -/
structure SyncClient where
  base_url : String
deriving DecidableEq, Repr

/-- `SyncClient::new`: parse the fixed base URL and unwrap.  `none` models
the panic of the `unwrap` on the parse-error branch. -/
def SyncClient.new : Option SyncClient :=
  match urlParse BASE_URL with
  | .ok u => some { base_url := u }
  | .error _ => none

/-- One outbound HTTP request: the method and the resolved URL. -/
structure Request where
  method : String
  url : String
deriving DecidableEq, Repr

/-- `SyncClient::get::<GemInfo>`: issue the GET through the transport oracle
`http`, classify the response (404 first, then `error_for_status`, which
rejects exactly the 400–599 range), then decode the body. -/
def SyncClient.get (http : String → Except ReqwestError HttpResponse)
    (url : String) : Except Error GemInfo :=
  match http url with
  | .error e => .error (.Http e)
  | .ok res =>
    if res.status = 404 then .error .NotFound
    else if 400 ≤ res.status ∧ res.status ≤ 599 then
      .error (.Http (.status res.status))
    else
      match decodeBody res.body with
      | none => .error (.Http .decode)
      | some data => .ok data

/-- The field-by-field reconstruction that `gem_info` performs on the decoded
payload (building `deserialized_gemdeps` and `deserialized_geminfo`). -/
def SyncClient.gem_info_reconstruct (data : GemInfo) : GemInfo :=
  let deserialized_gemdeps : GemDeps :=
    { development := data.dependencies.development
      runtime := data.dependencies.runtime }
  { name := data.name
    version := data.version
    authors := data.authors
    info := data.info
    licenses := data.licenses
    project_uri := data.project_uri
    gem_uri := data.gem_uri
    homepage_uri := data.homepage_uri
    wiki_uri := data.wiki_uri
    documentation_uri := data.documentation_uri
    dependencies := deserialized_gemdeps
    sha := data.sha }

/-- The observable outcome of one `gem_info` call: the returned result, the
list of HTTP requests issued during the call, and the client value after the
call (the method takes `&self`, so mutation would show up here). -/
structure CallResult where
  result : Except Error GemInfo
  requests : List Request
  client_after : SyncClient
deriving Repr

/-- `SyncClient::gem_info`: join `"<name>.json"` onto the base URL via the
`url`-crate oracle `join` (the `?` propagates its error as `Error::Url`
before any request is made), perform the GET, and rebuild the record
field-by-field. -/
def SyncClient.gem_info (join : String → String → Except UrlParseError String)
    (http : String → Except ReqwestError HttpResponse)
    (c : SyncClient) (name : String) : CallResult :=
  match join c.base_url (name ++ ".json") with
  | .error e => { result := .error (.Url e), requests := [], client_after := c }
  | .ok url =>
    match SyncClient.get http url with
    | .error e =>
      { result := .error e
        requests := [{ method := "GET", url := url }]
        client_after := c }
    | .ok data =>
      { result := .ok (SyncClient.gem_info_reconstruct data)
        requests := [{ method := "GET", url := url }]
        client_after := c }

/-- A client whose base URL is the crate's fixed base URL, as built by
`SyncClient::new`. -/
def client0 : SyncClient := { base_url := BASE_URL }

/-- A join oracle that always succeeds by plain concatenation (the behaviour
of `Url::join` for ordinary path-safe gem names). -/
def joinOk : String → String → Except UrlParseError String :=
  fun base rel => .ok (base ++ rel)

/-- A join oracle that always fails (the behaviour of `Url::join` for a name
that cannot be made into a valid URL). -/
def joinErr : String → String → Except UrlParseError String :=
  fun _ _ => .error .InvalidDomainCharacter

/-- A transport oracle that answers every request with the same response. -/
def httpConst (res : HttpResponse) : String → Except ReqwestError HttpResponse :=
  fun _ => .ok res

/-- Fields of a minimal well-formed gem payload. -/
def sampleFields : List (String × Json) :=
  [("name", .str "x"), ("authors", .str "a"), ("version", .str "1.0"),
   ("project_uri", .str "p"), ("gem_uri", .str "g"), ("sha", .str "s"),
   ("dependencies", .obj [])]

/-- A minimal well-formed gem payload. -/
def sampleBody : Json := .obj sampleFields

/-- The record that `sampleBody` decodes to. -/
def sampleGem : GemInfo :=
  { name := "x", authors := "a", version := "1.0", info := none,
    licenses := none, project_uri := "p", gem_uri := "g",
    homepage_uri := none, wiki_uri := none, documentation_uri := none,
    dependencies := { development := none, runtime := none }, sha := "s" }

/-- A payload whose required `name` field is present but empty. -/
def c4Body : Json :=
  .obj [("name", .str ""), ("authors", .str "a"), ("version", .str "1.0"),
        ("project_uri", .str "p"), ("gem_uri", .str "g"), ("sha", .str "s"),
        ("dependencies", .obj [])]

/-- The record that `c4Body` decodes to: its `name` is the empty string. -/
def c4Gem : GemInfo :=
  { name := "", authors := "a", version := "1.0", info := none,
    licenses := none, project_uri := "p", gem_uri := "g",
    homepage_uri := none, wiki_uri := none, documentation_uri := none,
    dependencies := { development := none, runtime := none }, sha := "s" }

/-- The JSON encoding of one development-dependency entry, used to state the
order-preservation property of list decoding. -/
def devDepJson (d : GemDevDeps) : Json :=
  .obj [("name", .str d.name), ("requirements", .str d.requirements)]

/-- The JSON encoding of one runtime-dependency entry. -/
def runDepJson (r : GemRunDeps) : Json :=
  .obj [("name", .str r.name), ("requirements", .str r.requirements)]

/-- Dependency fields of a payload with one development dependency. -/
def c8DepFields : List (String × Json) :=
  [("development", .arr [devDepJson { name := "rake", requirements := ">= 0" }])]

/-- Fields of a payload with a license list and a development dependency. -/
def c8Fields : List (String × Json) :=
  [("name", .str "x"), ("authors", .str "a"), ("version", .str "1.0"),
   ("licenses", .arr [.str "MIT"]), ("project_uri", .str "p"),
   ("gem_uri", .str "g"), ("sha", .str "s"),
   ("dependencies", .obj c8DepFields)]

/-- The record that `Json.obj c8Fields` decodes to. -/
def c8Gem : GemInfo :=
  { name := "x", authors := "a", version := "1.0", info := none,
    licenses := some ["MIT"], project_uri := "p", gem_uri := "g",
    homepage_uri := none, wiki_uri := none, documentation_uri := none,
    dependencies :=
      { development := some [{ name := "rake", requirements := ">= 0" }]
        runtime := none }
    sha := "s" }

end RubygemsApi

namespace RubygemsApi

/-- Unfolding `SyncClient.get` once the transport has delivered a response. -/
lemma get_eq_of_response (http : String → Except ReqwestError HttpResponse)
    (url : String) (res : HttpResponse) (hh : http url = .ok res) :
    SyncClient.get http url =
      if res.status = 404 then .error .NotFound
      else if 400 ≤ res.status ∧ res.status ≤ 599 then
        .error (.Http (.status res.status))
      else
        match decodeBody res.body with
        | none => .error (.Http .decode)
        | some data => .ok data := by
  unfold SyncClient.get
  rw [hh]

/-- The reconstruction in `gem_info` copies every field unchanged. -/
lemma gem_info_reconstruct_id (data : GemInfo) :
    SyncClient.gem_info_reconstruct data = data := rfl

/-- Unfolding `SyncClient.gem_info` once the URL join has succeeded. -/
lemma gem_info_eq_of_join_ok (join : String → String → Except UrlParseError String)
    (http : String → Except ReqwestError HttpResponse) (c : SyncClient)
    (name url : String) (hj : join c.base_url (name ++ ".json") = .ok url) :
    SyncClient.gem_info join http c name =
      { result := (SyncClient.get http url).map SyncClient.gem_info_reconstruct
        requests := [{ method := "GET", url := url }]
        client_after := c } := by
  cases hget : SyncClient.get http url with
  | error e => simp [SyncClient.gem_info, hj, hget, Except.map]
  | ok data => simp [SyncClient.gem_info, hj, hget, Except.map]

/-- `gem_info` leaves the client unchanged, whatever the oracles do. -/
lemma gem_info_client_after (join : String → String → Except UrlParseError String)
    (http : String → Except ReqwestError HttpResponse) (c : SyncClient)
    (name : String) : (SyncClient.gem_info join http c name).client_after = c := by
  cases hj : join c.base_url (name ++ ".json") with
  | error e => simp [SyncClient.gem_info, hj]
  | ok url =>
    cases hget : SyncClient.get http url with
    | error e => simp [SyncClient.gem_info, hj, hget]
    | ok data => simp [SyncClient.gem_info, hj, hget]

/-- A required string field that decoded must be present as a JSON string. -/
lemma reqField_asString {fields : List (String × Json)} {k s : String}
    (h : reqField fields k asString = some s) :
    fields.lookup k = some (.str s) := by
  unfold reqField at h
  cases hl : fields.lookup k with
  | none => rw [hl] at h; simp at h
  | some j =>
    rw [hl] at h
    cases j <;> simp [asString] at h
    subst h; rfl

/-- A required field that decoded must be present, with a decodable value. -/
lemma reqField_eq_some {fields : List (String × Json)} {k : String}
    {dec : Json → Option α} {x : α} (h : reqField fields k dec = some x) :
    ∃ v, fields.lookup k = some v ∧ dec v = some x := by
  unfold reqField at h
  cases hl : fields.lookup k with
  | none => rw [hl] at h; simp at h
  | some v => rw [hl] at h; exact ⟨v, rfl, h⟩

/-- An optional field decodes to `none` exactly when the key is absent or
bound to JSON `null`. -/
lemma optField_eq_some_none_iff (fields : List (String × Json)) (k : String)
    (dec : Json → Option α) :
    optField fields k dec = some none ↔
      fields.lookup k = none ∨ fields.lookup k = some .null := by
  unfold optField
  cases hl : fields.lookup k with
  | none => simp
  | some v => cases v <;> simp

/-- An optional field bound to a JSON array decodes through the element
decoder. -/
lemma optField_lookup_arr {fields : List (String × Json)} {k : String}
    {js : List Json} (dec : Json → Option α)
    (hl : fields.lookup k = some (.arr js)) :
    optField fields k dec = (dec (.arr js)).map some := by
  unfold optField
  rw [hl]

/-- `decodeGemDeps` only succeeds on a JSON object. -/
lemma decodeGemDeps_obj {j : Json} {d : GemDeps}
    (h : decodeGemDeps j = some d) : ∃ dfields, j = .obj dfields := by
  cases j <;> first
    | exact ⟨_, rfl⟩
    | simp [decodeGemDeps] at h

/-- Decoding a list of encoded strings recovers the strings in order. -/
lemma decodeList_asString_map (ls : List String) :
    decodeList asString (ls.map Json.str) = some ls := by
  induction ls with
  | nil => rfl
  | cons x xs ih => simp [decodeList, asString, ih]

/-- Decoding the encoding of a development-dependency entry recovers it. -/
lemma decodeGemDevDeps_devDepJson (d : GemDevDeps) :
    decodeGemDevDeps (devDepJson d) = some d := rfl

/-- Decoding a list of encoded development dependencies recovers them in
order. -/
lemma decodeList_devDepJson_map (ds : List GemDevDeps) :
    decodeList decodeGemDevDeps (ds.map devDepJson) = some ds := by
  induction ds with
  | nil => rfl
  | cons d rest ih => simp [decodeList, decodeGemDevDeps_devDepJson, ih]

/-- Decoding the encoding of a runtime-dependency entry recovers it. -/
lemma decodeGemRunDeps_runDepJson (r : GemRunDeps) :
    decodeGemRunDeps (runDepJson r) = some r := rfl

/-- Decoding a list of encoded runtime dependencies recovers them in order. -/
lemma decodeList_runDepJson_map (rs : List GemRunDeps) :
    decodeList decodeGemRunDeps (rs.map runDepJson) = some rs := by
  induction rs with
  | nil => rfl
  | cons r rest ih => simp [decodeList, decodeGemRunDeps_runDepJson, ih]

/-- C10: `SyncClient::new` always succeeds — the parse of the literal base
URL `https://rubygems.org/api/v1/gems/` cannot fail, so the `unwrap` in
`new` never takes its error branch, and every constructed client's
`base_url` is that constant. -/
theorem new_never_fails :
    urlParse BASE_URL = .ok BASE_URL ∧
    SyncClient.new = some { base_url := BASE_URL } :=
  ⟨rfl, rfl⟩

/-- C5: the field-by-field reconstruction that `gem_info` performs on the
decoded payload is a no-op — the reconstruction equals the identity on every
record, so the value `gem_info` returns is exactly the value produced by
decoding the response body in `get`. -/
theorem gem_info_reconstruction_noop :
    (∀ data : GemInfo, SyncClient.gem_info_reconstruct data = data) ∧
    (∀ (join : String → String → Except UrlParseError String)
        (http : String → Except ReqwestError HttpResponse)
        (c : SyncClient) (name url : String) (data : GemInfo),
      join c.base_url (name ++ ".json") = .ok url →
      SyncClient.get http url = .ok data →
      (SyncClient.gem_info join http c name).result = .ok data) := by
  refine ⟨fun data => rfl, ?_⟩
  intro join http c name url data hj hget
  rw [gem_info_eq_of_join_ok join http c name url hj, hget]
  simp [Except.map, gem_info_reconstruct_id]

/-- C5 witness: a concrete 200 response decoding to `sampleGem` is returned
by `gem_info` unchanged. -/
theorem gem_info_reconstruction_noop_witness :
    (SyncClient.gem_info joinOk
      (httpConst { status := 200, body := some sampleBody }) client0 "x").result
      = .ok sampleGem :=
  gem_info_reconstruction_noop.2 joinOk
    (httpConst { status := 200, body := some sampleBody }) client0 "x"
    (BASE_URL ++ ("x" ++ ".json")) sampleGem rfl rfl

/-- C9: `gem_info` is deterministic, stateless and idempotent — the call
leaves the client unchanged, and a second call through the same oracles
(that is, observing the same upstream response) on the post-call client
returns an identical outcome: same result, same requests, same client. -/
theorem gem_info_stateless_idempotent
    (join : String → String → Except UrlParseError String)
    (http : String → Except ReqwestError HttpResponse)
    (c : SyncClient) (name : String) :
    (SyncClient.gem_info join http c name).client_after = c ∧
    SyncClient.gem_info join http
        (SyncClient.gem_info join http c name).client_after name
      = SyncClient.gem_info join http c name := by
  refine ⟨gem_info_client_after join http c name, ?_⟩
  rw [gem_info_client_after join http c name]

/-- C6: when joining `"<name>.json"` onto the base URL fails, `gem_info`
returns the `Url` error kind (not `Http`) and issues no HTTP request. -/
theorem gem_info_join_error
    (join : String → String → Except UrlParseError String)
    (http : String → Except ReqwestError HttpResponse)
    (c : SyncClient) (name : String) (e : UrlParseError)
    (hj : join c.base_url (name ++ ".json") = .error e) :
    SyncClient.gem_info join http c name =
      { result := .error (.Url e), requests := [], client_after := c } := by
  simp [SyncClient.gem_info, hj]

/-- C6 witness: a concrete failing join yields the `Url` error and an empty
request list. -/
theorem gem_info_join_error_witness :
    SyncClient.gem_info joinErr (httpConst { status := 200, body := none })
        client0 "x" =
      { result := .error (.Url .InvalidDomainCharacter), requests := []
        client_after := client0 } :=
  gem_info_join_error joinErr (httpConst { status := 200, body := none })
    client0 "x" .InvalidDomainCharacter rfl

/-- C7: a client built by `SyncClient::new` has the fixed base URL
`https://rubygems.org/api/v1/gems/`, and whenever joining `"<name>.json"`
onto it produces a URL, the call issues exactly one request: a GET to that
joined URL. -/
theorem gem_info_request_is_joined_url
    (join : String → String → Except UrlParseError String)
    (http : String → Except ReqwestError HttpResponse)
    (c : SyncClient) (name url : String)
    (hc : SyncClient.new = some c)
    (hj : join c.base_url (name ++ ".json") = .ok url) :
    c.base_url = BASE_URL ∧
    (SyncClient.gem_info join http c name).requests =
      [{ method := "GET", url := url }] := by
  have hbase : c.base_url = BASE_URL := by
    have h : some ({ base_url := BASE_URL } : SyncClient) = some c := by
      rw [← hc]; rfl
    injection h with h'
    rw [← h']
  refine ⟨hbase, ?_⟩
  rw [gem_info_eq_of_join_ok join http c name url hj]

/-- C7 witness: for the name `x` and a concatenating join, the single
request is a GET to the base URL followed by `x.json`. -/
theorem gem_info_request_is_joined_url_witness :
    client0.base_url = BASE_URL ∧
    (SyncClient.gem_info joinOk (httpConst { status := 200, body := none })
        client0 "x").requests =
      [{ method := "GET", url := BASE_URL ++ ("x" ++ ".json") }] :=
  gem_info_request_is_joined_url joinOk
    (httpConst { status := 200, body := none }) client0 "x"
    (BASE_URL ++ ("x" ++ ".json")) rfl rfl

end RubygemsApi

namespace RubygemsApi

/-- C1: once the join has produced a URL and the transport has delivered a
response, `gem_info` returns the `NotFound` error kind exactly when the
response status is 404 — no other status produces `NotFound`. -/
theorem gem_info_notfound_iff_404
    (join : String → String → Except UrlParseError String)
    (http : String → Except ReqwestError HttpResponse)
    (c : SyncClient) (name url : String) (res : HttpResponse)
    (hj : join c.base_url (name ++ ".json") = .ok url)
    (hh : http url = .ok res) :
    (SyncClient.gem_info join http c name).result = .error .NotFound ↔
      res.status = 404 := by
  rw [gem_info_eq_of_join_ok join http c name url hj,
    get_eq_of_response http url res hh]
  by_cases h404 : res.status = 404
  · simp [h404, Except.map]
  · by_cases hrange : 400 ≤ res.status ∧ res.status ≤ 599
    · simp [h404, hrange, Except.map]
    · cases hdec : decodeBody res.body <;>
        simp [h404, hrange, hdec, Except.map]

/-- C1 witness: a concrete 404 response makes `gem_info` return `NotFound`. -/
theorem gem_info_notfound_iff_404_witness :
    ((SyncClient.gem_info joinOk (httpConst { status := 404, body := none })
        client0 "x").result = .error .NotFound ↔
      ({ status := 404, body := none } : HttpResponse).status = 404) :=
  gem_info_notfound_iff_404 joinOk (httpConst { status := 404, body := none })
    client0 "x" (BASE_URL ++ ("x" ++ ".json"))
    { status := 404, body := none } rfl rfl

/-- C2 counterexample: a response with the non-success status 301 (which is
neither 2xx nor 404) carrying a well-formed body does NOT produce an `Http`
error — `gem_info` returns a success value, because `error_for_status` only
rejects the 400–599 range. -/
theorem gem_info_non_success_cex :
    (SyncClient.gem_info joinOk
      (httpConst { status := 301, body := some sampleBody }) client0 "x").result
      = .ok sampleGem := rfl

/-- C2 (amended): a response status in the 400–599 range other than 404
makes `gem_info` fail with an `Http` error carrying that status, and no
success value is produced; statuses outside 400–599 are not rejected by the
status check. -/
theorem gem_info_http_error_400_599
    (join : String → String → Except UrlParseError String)
    (http : String → Except ReqwestError HttpResponse)
    (c : SyncClient) (name url : String) (res : HttpResponse)
    (hj : join c.base_url (name ++ ".json") = .ok url)
    (hh : http url = .ok res)
    (h400 : 400 ≤ res.status) (h599 : res.status ≤ 599)
    (h404 : res.status ≠ 404) :
    (SyncClient.gem_info join http c name).result =
      .error (.Http (.status res.status)) := by
  rw [gem_info_eq_of_join_ok join http c name url hj,
    get_eq_of_response http url res hh]
  simp [h404, h400, h599, Except.map]

/-- C2 witness: a concrete 500 response yields the `Http` status error. -/
theorem gem_info_http_error_400_599_witness :
    (SyncClient.gem_info joinOk (httpConst { status := 500, body := none })
        client0 "x").result = .error (.Http (.status 500)) :=
  gem_info_http_error_400_599 joinOk
    (httpConst { status := 500, body := none }) client0 "x"
    (BASE_URL ++ ("x" ++ ".json")) { status := 500, body := none }
    rfl rfl (by decide) (by decide) (by decide)

/-- C3: a 2xx response whose body fails to decode as `GemInfo` (not valid
JSON, a missing required field, or a type mismatch) makes `gem_info` fail
with the `Http`-class decode error; no record, partial or otherwise, is
returned. -/
theorem gem_info_decode_failure_http
    (join : String → String → Except UrlParseError String)
    (http : String → Except ReqwestError HttpResponse)
    (c : SyncClient) (name url : String) (res : HttpResponse)
    (hj : join c.base_url (name ++ ".json") = .ok url)
    (hh : http url = .ok res)
    (h200 : 200 ≤ res.status) (h300 : res.status < 300)
    (hdec : decodeBody res.body = none) :
    (SyncClient.gem_info join http c name).result = .error (.Http .decode) := by
  rw [gem_info_eq_of_join_ok join http c name url hj,
    get_eq_of_response http url res hh]
  have h404 : ¬ res.status = 404 := by omega
  have hrange : ¬ (400 ≤ res.status ∧ res.status ≤ 599) := by omega
  simp [h404, hrange, hdec, Except.map]

/-- C3 witness: a concrete 200 response whose body lacks every required
field yields the decode error. -/
theorem gem_info_decode_failure_http_witness :
    (SyncClient.gem_info joinOk
        (httpConst { status := 200, body := some (.obj []) }) client0 "x").result
      = .error (.Http .decode) :=
  gem_info_decode_failure_http joinOk
    (httpConst { status := 200, body := some (.obj []) }) client0 "x"
    (BASE_URL ++ ("x" ++ ".json")) { status := 200, body := some (.obj []) }
    rfl rfl (by decide) (by decide) rfl

end RubygemsApi

namespace RubygemsApi

/-- C4 counterexample: the serde-derived decode enforces presence and type
of required fields but NOT non-emptiness — a 2xx body whose required `name`
field is the empty string decodes successfully to a record whose `name` is
empty, and `gem_info` returns it, contradicting the claim that such a body
causes decoding to fail entirely. -/
theorem decode_empty_required_field_cex :
    decodeGemInfo c4Body = some c4Gem ∧ c4Gem.name = "" ∧
    (SyncClient.gem_info joinOk
      (httpConst { status := 200, body := some c4Body }) client0 "x").result
      = .ok c4Gem :=
  ⟨rfl, rfl, rfl⟩

/-- C4 (amended): whenever decoding succeeds, every field of the returned
record not declared optional (`name`, `authors`, `version`, `project_uri`,
`gem_uri`, `sha`, the `dependencies` object, and the `name` and
`requirements` of every dependency entry) was present in the body with the
required type — a body missing any of them fails to decode entirely — but
emptiness is not checked: an empty string in a required field decodes
successfully. -/
theorem decode_required_fields_present :
    (∀ (fields : List (String × Json)) (g : GemInfo),
      decodeGemInfo (.obj fields) = some g →
        fields.lookup "name" = some (.str g.name) ∧
        fields.lookup "authors" = some (.str g.authors) ∧
        fields.lookup "version" = some (.str g.version) ∧
        fields.lookup "project_uri" = some (.str g.project_uri) ∧
        fields.lookup "gem_uri" = some (.str g.gem_uri) ∧
        fields.lookup "sha" = some (.str g.sha) ∧
        ∃ dfields, fields.lookup "dependencies" = some (.obj dfields)) ∧
    (∀ (j : Json) (d : GemDevDeps),
      decodeGemDevDeps j = some d →
        ∃ efields, j = .obj efields ∧
          efields.lookup "name" = some (.str d.name) ∧
          efields.lookup "requirements" = some (.str d.requirements)) ∧
    (∀ (j : Json) (r : GemRunDeps),
      decodeGemRunDeps j = some r →
        ∃ efields, j = .obj efields ∧
          efields.lookup "name" = some (.str r.name) ∧
          efields.lookup "requirements" = some (.str r.requirements)) := by
  refine ⟨?_, ?_, ?_⟩
  · intro fields g h
    simp only [decodeGemInfo, Option.bind_eq_bind, Option.bind_eq_some,
      Option.pure_def, Option.some.injEq] at h
    obtain ⟨n, hn, a, ha, v, hv, i, hi, l, hl, p, hp, gu, hgu, ho, hho, w, hw,
      d, hd, deps, hdeps, s, hs, hg⟩ := h
    subst hg
    obtain ⟨jd, hjd, hdecd⟩ := reqField_eq_some hdeps
    obtain ⟨dfields, hdf⟩ := decodeGemDeps_obj hdecd
    subst hdf
    exact ⟨reqField_asString hn, reqField_asString ha, reqField_asString hv,
      reqField_asString hp, reqField_asString hgu, reqField_asString hs,
      dfields, hjd⟩
  · intro j d h
    cases j with
    | obj efields =>
      simp only [decodeGemDevDeps, Option.bind_eq_bind, Option.bind_eq_some,
        Option.pure_def, Option.some.injEq] at h
      obtain ⟨n, hn, r, hr, hd⟩ := h
      subst hd
      exact ⟨efields, rfl, reqField_asString hn, reqField_asString hr⟩
    | null => simp [decodeGemDevDeps] at h
    | bool b => simp [decodeGemDevDeps] at h
    | num m => simp [decodeGemDevDeps] at h
    | str s => simp [decodeGemDevDeps] at h
    | arr js => simp [decodeGemDevDeps] at h
  · intro j r h
    cases j with
    | obj efields =>
      simp only [decodeGemRunDeps, Option.bind_eq_bind, Option.bind_eq_some,
        Option.pure_def, Option.some.injEq] at h
      obtain ⟨n, hn, rq, hr, hd⟩ := h
      subst hd
      exact ⟨efields, rfl, reqField_asString hn, reqField_asString hr⟩
    | null => simp [decodeGemRunDeps] at h
    | bool b => simp [decodeGemRunDeps] at h
    | num m => simp [decodeGemRunDeps] at h
    | str s => simp [decodeGemRunDeps] at h
    | arr js => simp [decodeGemRunDeps] at h

/-- C4 witness: on the concrete well-formed payload, the decoded record's
`name` comes from the body's `name` field. -/
theorem decode_required_fields_present_witness :
    sampleFields.lookup "name" = some (.str sampleGem.name) :=
  (decode_required_fields_present.1 sampleFields sampleGem rfl).1

/-- C8: successful decoding preserves the distinction between absent and
empty and keeps server order — the `licenses` list and each dependency
sequence decode to `none` exactly when the field is absent or JSON `null`
(never to an empty list), and a present array decodes to its entries in the
server-provided order. -/
theorem decode_preserves_absent_and_order :
    ∀ (fields : List (String × Json)) (g : GemInfo),
      decodeGemInfo (.obj fields) = some g →
        ((g.licenses = none) ↔
          (fields.lookup "licenses" = none ∨
           fields.lookup "licenses" = some .null)) ∧
        (∀ ls : List String,
          fields.lookup "licenses" = some (.arr (ls.map Json.str)) →
            g.licenses = some ls) ∧
        (∀ dfields, fields.lookup "dependencies" = some (.obj dfields) →
          ((g.dependencies.development = none) ↔
            (dfields.lookup "development" = none ∨
             dfields.lookup "development" = some .null)) ∧
          (∀ ds : List GemDevDeps,
            dfields.lookup "development" = some (.arr (ds.map devDepJson)) →
              g.dependencies.development = some ds) ∧
          ((g.dependencies.runtime = none) ↔
            (dfields.lookup "runtime" = none ∨
             dfields.lookup "runtime" = some .null)) ∧
          (∀ rs : List GemRunDeps,
            dfields.lookup "runtime" = some (.arr (rs.map runDepJson)) →
              g.dependencies.runtime = some rs)) := by
  intro fields g h
  simp only [decodeGemInfo, Option.bind_eq_bind, Option.bind_eq_some,
    Option.pure_def, Option.some.injEq] at h
  obtain ⟨n, hn, a, ha, v, hv, i, hi, l, hl, p, hp, gu, hgu, ho, hho, w, hw,
    d, hd, deps, hdeps, s, hs, hg⟩ := h
  subst hg
  refine ⟨?_, ?_, ?_⟩
  · show (l = none) ↔ _
    constructor
    · intro hnone
      rw [hnone] at hl
      exact (optField_eq_some_none_iff fields "licenses" decodeStringList).mp hl
    · intro habs
      have hx := (optField_eq_some_none_iff fields "licenses" decodeStringList).mpr habs
      exact (Option.some.inj (hx.symm.trans hl)).symm
  · intro ls hls
    show l = some ls
    rw [optField_lookup_arr decodeStringList hls] at hl
    rw [show decodeStringList (.arr (ls.map Json.str)) = some ls from
      decodeList_asString_map ls] at hl
    simp only [Option.map_some', Option.some.injEq] at hl
    exact hl.symm
  · intro dfields hdf
    obtain ⟨jd, hjd, hdecd⟩ := reqField_eq_some hdeps
    rw [hdf] at hjd
    injection hjd with hjd'
    subst hjd'
    simp only [decodeGemDeps, Option.bind_eq_bind, Option.bind_eq_some,
      Option.pure_def, Option.some.injEq] at hdecd
    obtain ⟨dev, hdev, run, hrun, hdeq⟩ := hdecd
    subst hdeq
    refine ⟨?_, ?_, ?_, ?_⟩
    · show (dev = none) ↔ _
      constructor
      · intro hnone
        rw [hnone] at hdev
        exact (optField_eq_some_none_iff dfields "development" decodeDevList).mp hdev
      · intro habs
        have hx := (optField_eq_some_none_iff dfields "development" decodeDevList).mpr habs
        exact (Option.some.inj (hx.symm.trans hdev)).symm
    · intro ds hds
      show dev = some ds
      rw [optField_lookup_arr decodeDevList hds] at hdev
      rw [show decodeDevList (.arr (ds.map devDepJson)) = some ds from
        decodeList_devDepJson_map ds] at hdev
      simp only [Option.map_some', Option.some.injEq] at hdev
      exact hdev.symm
    · show (run = none) ↔ _
      constructor
      · intro hnone
        rw [hnone] at hrun
        exact (optField_eq_some_none_iff dfields "runtime" decodeRunList).mp hrun
      · intro habs
        have hx := (optField_eq_some_none_iff dfields "runtime" decodeRunList).mpr habs
        exact (Option.some.inj (hx.symm.trans hrun)).symm
    · intro rs hrs
      show run = some rs
      rw [optField_lookup_arr decodeRunList hrs] at hrun
      rw [show decodeRunList (.arr (rs.map runDepJson)) = some rs from
        decodeList_runDepJson_map rs] at hrun
      simp only [Option.map_some', Option.some.injEq] at hrun
      exact hrun.symm

/-- C8 witness: on a concrete payload with one license, one development
dependency and no `runtime` key, the decoded record keeps the license and
the dependency in order and marks `runtime` as absent, not empty. -/
theorem decode_preserves_absent_and_order_witness :
    c8Gem.licenses = some ["MIT"] ∧
    c8Gem.dependencies.development =
      some [{ name := "rake", requirements := ">= 0" }] ∧
    c8Gem.dependencies.runtime = none :=
  ⟨(decode_preserves_absent_and_order c8Fields c8Gem rfl).2.1 ["MIT"] rfl,
   ((decode_preserves_absent_and_order c8Fields c8Gem rfl).2.2 c8DepFields rfl).2.1
     [{ name := "rake", requirements := ">= 0" }] rfl,
   ((decode_preserves_absent_and_order c8Fields c8Gem rfl).2.2 c8DepFields rfl).2.2.1.mpr
     (Or.inl rfl)⟩

end RubygemsApi
